import Mathlib

/-!
Verification of the metamesh-plugin-tmdb resolution-and-caching pipeline.

The development shallowly embeds the plugin's core (src/plugin.ts and
src/webdav-client.ts) over lists of bytes (`List Nat`, each < 256) and pure
environment records standing for the external collaborators (TMDB HTTP API,
WebDAV byte store, JSON cache, meta-core metadata store).  JavaScript
numbers that the code only ever uses as nonnegative integers (file sizes,
offsets) are modelled as `Nat`; JS 32-bit coercions in the base-32 encoder
are modelled with explicit `% 2 ^ 32`; bit operations `x >>> n & 0x1f` and
`x << n & 0x1f` are written in their arithmetic form `x / 2 ^ n % 32` and
`x * 2 ^ n % 32`.  Fallible external calls are `Except`/`Option` valued
environment fields, and the `try/catch` blocks of the source become the
corresponding `Option` fall-throughs.
-/

namespace Tmdb

/-! ## Big-endian byte encodings -/

/-- The four big-endian bytes of a 32-bit word (most significant first). -/
def be4 (x : Nat) : List Nat :=
  [x / 2 ^ 24 % 256, x / 2 ^ 16 % 256, x / 2 ^ 8 % 256, x % 256]

/-- The eight big-endian bytes of a 64-bit value: the embedding of
`Buffer.writeBigUInt64BE` (file sizes are below 2^64, where this is exact). -/
def be8 (x : Nat) : List Nat :=
  [x / 2 ^ 56 % 256, x / 2 ^ 48 % 256, x / 2 ^ 40 % 256, x / 2 ^ 32 % 256,
   x / 2 ^ 24 % 256, x / 2 ^ 16 % 256, x / 2 ^ 8 % 256, x % 256]

/-! ## SHA-256 over byte lists

The embedding of node's `createHash('sha256')`: the FIPS 180-4 algorithm
written over `List Nat` bytes, with 32-bit words as `Nat` reduced `% 2 ^ 32`.
The round and initial-state constants are produced from their definition
(fractional parts of cube/square roots of the first primes) by integer
root extraction, rather than transcribed. -/

/-- The first 64 primes, sources of the SHA-256 constants. -/
def primes64 : List Nat :=
  [2, 3, 5, 7, 11, 13, 17, 19, 23, 29, 31, 37, 41, 43, 47, 53,
   59, 61, 67, 71, 73, 79, 83, 89, 97, 101, 103, 107, 109, 113, 127, 131,
   137, 139, 149, 151, 157, 163, 167, 173, 179, 181, 191, 193, 197, 199, 211, 223,
   227, 229, 233, 239, 241, 251, 257, 263, 269, 271, 277, 281, 283, 293, 307, 311]

/-- Fuelled binary search for the integer cube root: the largest `r` in
`[lo, hi]` with `r ^ 3 ≤ n` (fuel bounds the iteration count). -/
def icbrtGo : Nat → Nat → Nat → Nat → Nat
  | 0, lo, _, _ => lo
  | fuel + 1, lo, hi, n =>
    if lo ≥ hi then lo
    else
      let mid := (lo + hi + 1) / 2
      if mid ^ 3 ≤ n then icbrtGo fuel mid hi n else icbrtGo fuel lo (mid - 1) n

/-- Integer cube root (for arguments below 2 ^ 120). -/
def icbrt (n : Nat) : Nat := icbrtGo 64 0 (2 ^ 40) n

/-- SHA-256 round constants: the first 32 bits of the fractional parts of the
cube roots of the first 64 primes. -/
def shaK : List Nat := primes64.map fun p => icbrt (p * 2 ^ 96) % 2 ^ 32

/-- SHA-256 initial state: the first 32 bits of the fractional parts of the
square roots of the first 8 primes. -/
def shaH0 : List Nat := (primes64.take 8).map fun p => Nat.sqrt (p * 2 ^ 64) % 2 ^ 32

/-- Rotate a 32-bit word right by `n` bits. -/
def rotr (n x : Nat) : Nat := x / 2 ^ n + x % 2 ^ n * 2 ^ (32 - n)

/-- SHA-256 big sigma 0. -/
def bsig0 (x : Nat) : Nat := rotr 2 x ^^^ rotr 13 x ^^^ rotr 22 x

/-- SHA-256 big sigma 1. -/
def bsig1 (x : Nat) : Nat := rotr 6 x ^^^ rotr 11 x ^^^ rotr 25 x

/-- SHA-256 small sigma 0. -/
def ssig0 (x : Nat) : Nat := rotr 7 x ^^^ rotr 18 x ^^^ x / 2 ^ 3

/-- SHA-256 small sigma 1. -/
def ssig1 (x : Nat) : Nat := rotr 17 x ^^^ rotr 19 x ^^^ x / 2 ^ 10

/-- SHA-256 padding: append `0x80`, zeros to 56 mod 64 bytes, and the 8-byte
big-endian bit length. -/
def shaPad (m : List Nat) : List Nat :=
  m ++ 128 :: List.replicate ((64 - (m.length + 9) % 64) % 64) 0 ++ be8 (m.length * 8)

/-- Split a byte list into 64-byte blocks (fuelled; fuel ≥ number of blocks). -/
def chunks64 : Nat → List Nat → List (List Nat)
  | 0, _ => []
  | _, [] => []
  | fuel + 1, l => l.take 64 :: chunks64 fuel (l.drop 64)

/-- The 16 initial 32-bit message-schedule words of one 64-byte block. -/
def blockWords (b : List Nat) : List Nat :=
  (List.range 16).map fun i =>
    b.getD (4 * i) 0 * 2 ^ 24 + b.getD (4 * i + 1) 0 * 2 ^ 16 +
    b.getD (4 * i + 2) 0 * 2 ^ 8 + b.getD (4 * i + 3) 0

/-- Extend the 16 block words to the 64-entry message schedule. -/
def schedule (w16 : List Nat) : List Nat :=
  (List.range 48).foldl
    (fun w _ =>
      w ++ [(ssig1 (w.getD (w.length - 2) 0) + w.getD (w.length - 7) 0 +
             ssig0 (w.getD (w.length - 15) 0) + w.getD (w.length - 16) 0) % 2 ^ 32])
    w16

/-- The eight 32-bit words of a SHA-256 state. -/
structure Sha256State where
  a : Nat
  b : Nat
  c : Nat
  d : Nat
  e : Nat
  f : Nat
  g : Nat
  h : Nat
deriving DecidableEq

/-- One SHA-256 compression: 64 rounds over a block, added to the chaining
state. -/
def compress (st : Sha256State) (block : List Nat) : Sha256State :=
  let w := schedule (blockWords block)
  let r := (List.range 64).foldl
    (fun s i =>
      let ch := s.e &&& s.f ^^^ ((s.e ^^^ (2 ^ 32 - 1)) &&& s.g)
      let maj := s.a &&& s.b ^^^ (s.a &&& s.c) ^^^ (s.b &&& s.c)
      let t1 := (s.h + bsig1 s.e + ch + shaK.getD i 0 + w.getD i 0) % 2 ^ 32
      let t2 := (bsig0 s.a + maj) % 2 ^ 32
      ⟨(t1 + t2) % 2 ^ 32, s.a, s.b, s.c, (s.d + t1) % 2 ^ 32, s.e, s.f, s.g⟩)
    st
  ⟨(st.a + r.a) % 2 ^ 32, (st.b + r.b) % 2 ^ 32, (st.c + r.c) % 2 ^ 32,
   (st.d + r.d) % 2 ^ 32, (st.e + r.e) % 2 ^ 32, (st.f + r.f) % 2 ^ 32,
   (st.g + r.g) % 2 ^ 32, (st.h + r.h) % 2 ^ 32⟩

/-- The SHA-256 digest of a byte list, as its 32 bytes. -/
def sha256 (m : List Nat) : List Nat :=
  let blocks := chunks64 (m.length / 64 + 2) (shaPad m)
  let st := blocks.foldl compress
    ⟨shaH0.getD 0 0, shaH0.getD 1 0, shaH0.getD 2 0, shaH0.getD 3 0,
     shaH0.getD 4 0, shaH0.getD 5 0, shaH0.getD 6 0, shaH0.getD 7 0⟩
  be4 st.a ++ be4 st.b ++ be4 st.c ++ be4 st.d ++
  be4 st.e ++ be4 st.f ++ be4 st.g ++ be4 st.h

/-! ## The content addresser (`computeMidHash256FromData`, plugin.ts 130-171)

The source packs a CIDv1 record — version `0x01`, codec varint `[0x80, 0x20]`
written twice (codec and hash-function code `0x1000`), digest length `0x20`,
then the 32 SHA-256 bytes of `be8 size ++ sample` — and base-32-encodes it
with a stateful bit accumulator.  JS `value = (value << 8) | byte` coerces to
32 bits, embedded as `% 2 ^ 32`; only the low 13 bits are ever read, so the
coercion is observation-equivalent to the JS int32 arithmetic. -/

/-- The source's base-32 alphabet string. -/
def base32Chars : List Char := "abcdefghijklmnopqrstuvwxyz234567".toList

/-- Index into the base-32 alphabet. -/
def b32c (n : Nat) : Char := base32Chars.getD n 'a'

/-- The encoder's inner `while (bits >= 5)` loop: decrement `bits` by 5 and
emit `chars[(value >> bits) & 0x1f]` while five or more bits are buffered.
Returns the emitted characters and the final `bits`.  The first argument is
fuel; called with fuel = `bits` it never runs out, since every iteration
consumes five bits. -/
def emitChars : Nat → Nat → Nat → List Char × Nat
  | 0, _, bits => ([], bits)
  | fuel + 1, value, bits =>
    if 5 ≤ bits then
      let p := emitChars fuel value (bits - 5)
      (b32c (value / 2 ^ (bits - 5) % 32) :: p.1, p.2)
    else ([], bits)

/-- The encoder's `for (const byte of cidBytes)` loop followed by the final
`if (bits > 0)` padding emission, as a recursion over the remaining bytes
carrying the `(value, bits)` accumulator. -/
def encodeCore : List Nat → Nat → Nat → List Char
  | [], value, bits =>
    if 0 < bits then [b32c (value * 2 ^ (5 - bits) % 2 ^ 32 % 32)] else []
  | byte :: rest, value, bits =>
    let value2 := (value * 256 + byte) % 2 ^ 32
    let p := emitChars (bits + 8) value2 (bits + 8)
    p.1 ++ encodeCore rest value2 p.2

/-- The packed CID record: `0x01` version, `[0x80, 0x20]` codec varint,
`[0x80, 0x20]` hash-function varint, `0x20` digest length, 32 digest bytes. -/
def cidBytesOf (fileSize : Nat) (sampleData : List Nat) : List Nat :=
  1 :: 128 :: 32 :: 128 :: 32 :: 32 :: sha256 (be8 fileSize ++ sampleData)

/-- `computeMidHash256FromData`: SHA-256 over the 8-byte big-endian size
followed by the sample, packed as a CIDv1 record and base-32 encoded with a
leading multibase 'b'. -/
def computeMidHash256FromData (fileSize : Nat) (sampleData : List Nat) : String :=
  String.mk ('b' :: encodeCore (cidBytesOf fileSize sampleData) 0 0)

/-! ### Specification-side encoding (from the spec's words)

"assemble an identifier consisting of a version marker, a fixed codec marker,
a fixed hash-function marker, a length marker, and the 32-byte digest, all
packed as a short tagged binary record; text-encode the packed record using a
lowercase base-32 alphabet with no padding, prefixed by a multibase indicator
character" — with the markers as multiformats unsigned varints of `0x1000`,
and base-32 as the RFC 4648 bit-regrouping: the bytes' bits, most significant
first, split into 5-bit groups, the last group zero-padded on the right. -/

/-- Multiformats unsigned varint: little-endian base-128 groups, continuation
bit on every byte but the last (fuelled on the number of groups). -/
def specVarint : Nat → Nat → List Nat
  | 0, _ => []
  | fuel + 1, n => if n < 128 then [n] else (128 + n % 128) :: specVarint fuel (n / 128)

/-- The eight bits of a byte, most significant first, as 0/1 numbers. -/
def byteBits (b : Nat) : List Nat :=
  [b / 128 % 2, b / 64 % 2, b / 32 % 2, b / 16 % 2, b / 8 % 2, b / 4 % 2, b / 2 % 2, b % 2]

/-- A byte list as its bit string, most significant bit first. -/
def toBits : List Nat → List Nat
  | [] => []
  | b :: rest => byteBits b ++ toBits rest

/-- The value of a bit string read most-significant-first. -/
def bitsVal (l : List Nat) : Nat := l.foldl (fun a x => 2 * a + x) 0

/-- RFC 4648 base-32 without padding over a bit string: consume five bits per
character; a final group of fewer than five bits is zero-padded on the right. -/
def b32go : List Nat → List Char
  | [] => []
  | [a] => [b32c (a * 16)]
  | [a, b] => [b32c (a * 16 + b * 8)]
  | [a, b, c] => [b32c (a * 16 + b * 8 + c * 4)]
  | [a, b, c, d] => [b32c (a * 16 + b * 8 + c * 4 + d * 2)]
  | a :: b :: c :: d :: e :: rest => b32c (a * 16 + b * 8 + c * 4 + d * 2 + e) :: b32go rest

/-- The spec's identifier: multibase 'b' plus the base-32 encoding of
`[version] ++ varint codec ++ varint hash-function ++ [length] ++ digest`. -/
def specAddressOf (fileSize : Nat) (sampleData : List Nat) : String :=
  "b" ++ String.mk (b32go (toBits
    ([1] ++ specVarint 8 4096 ++ specVarint 8 4096 ++ [32] ++
      sha256 (be8 fileSize ++ sampleData))))

/-- Decode a multiformats unsigned varint from the front of a byte list. -/
def decodeVarint : List Nat → Option (Nat × List Nat)
  | [] => none
  | b :: rest =>
    if b < 128 then some (b, rest)
    else
      match decodeVarint rest with
      | some p => some (b - 128 + 128 * p.1, p.2)
      | none => none

/-- Decode a packed CID record into (codec, hash-function code, digest length,
digest), checking that the advertised digest length matches. -/
def decodeCid (l : List Nat) : Option (Nat × Nat × Nat × List Nat) :=
  match l with
  | 1 :: r =>
    match decodeVarint r with
    | some (codec, r2) =>
      match decodeVarint r2 with
      | some (hf, r3) =>
        match r3 with
        | n :: digest => if digest.length = n then some (codec, hf, n, digest) else none
        | [] => none
      | none => none
    | none => none
  | _ => none

/-! ## Sampling (`computeMidHash256Sync` 70-101, `computeMidHash256WebDAV` 106-125)

A file is its byte list.  `readSync(fd, buf, 0, len, off)` on a regular file
fills `buf` with the `len` bytes at offset `off`; WebDAV `readBytes(path,
start, end)` issues a `Range: bytes=start-end` request, returning the bytes
at the inclusive range. -/

/-- The 1 MiB sample size. -/
def SAMPLE_SIZE : Nat := 1024 * 1024

/-- `readSync` on a regular file: the `len` bytes starting at `off`. -/
def readChunk (file : List Nat) (off len : Nat) : List Nat :=
  (file.drop off).take len

/-- The bytes `computeMidHash256Sync` hashes: the whole file when its size is
at most 1 MiB, else the 1 MiB read at `floor((size - 1MiB) / 2)`. -/
def sampleSync (file : List Nat) : List Nat :=
  if file.length ≤ SAMPLE_SIZE then readChunk file 0 file.length
  else readChunk file ((file.length - SAMPLE_SIZE) / 2) SAMPLE_SIZE

/-- `computeMidHash256Sync`: stat the file, sample it, and address the
(size, sample) pair. -/
def computeMidHash256Sync (file : List Nat) : String :=
  computeMidHash256FromData file.length (sampleSync file)

/-- WebDAV `readBytes(path, start, end)`: the inclusive byte range
`start..end` of the stored file (a server clamps the range to the content). -/
def davReadBytes (file : List Nat) (start endi : Nat) : List Nat :=
  (file.drop start).take (endi - start + 1)

/-- `computeMidHash256WebDAV`: size from the HTTP HEAD `content-length`
(`statSize`, which a correct backend reports as the stored length), sample via
range reads, and address the (size, sample) pair. -/
def computeMidHash256WebDAV (statSize : Nat) (file : List Nat) : String :=
  if statSize ≤ SAMPLE_SIZE then
    computeMidHash256FromData statSize (davReadBytes file 0 (statSize - 1))
  else
    let middleOffset := (statSize - SAMPLE_SIZE) / 2
    computeMidHash256FromData statSize
      (davReadBytes file middleOffset (middleOffset + SAMPLE_SIZE - 1))

/-- The WebDAV hash of a stored artifact, as `downloadAndHashImage` computes
it: HEAD reports the stored length, range reads return the stored bytes. -/
def davHash (content : List Nat) : String :=
  computeMidHash256WebDAV content.length content

/-! ## JavaScript value helpers

Optional string-valued fields are `Option String`: `none` is `undefined`,
`some ""` the empty string.  `jsTruthy` is JS truthiness on such a value;
`jsOrS` is `a || b` (first operand when truthy, else the second as-is). -/

/-- JS truthiness of an optional string: defined and non-empty. -/
def jsTruthy : Option String → Bool
  | some s => !s.isEmpty
  | none => false

/-- JS `a || b` on optional strings. -/
def jsOrS (a b : Option String) : Option String := if jsTruthy a then a else b

/-- JS object assignment `o[k] = v` on an insertion-ordered key/value list:
overwrite in place when the key exists, else append. -/
def upsert : List (String × String) → String → String → List (String × String)
  | [], k, v => [(k, v)]
  | (k', v') :: rest, k, v =>
    if k' = k then (k', v) :: rest else (k', v') :: upsert rest k v

/-! ## Year stripping (process, plugin.ts 482-486)

The source builds the regex `\s*[([]?YEAR[)\]]?\s*$` from the known year and
replaces its first (hence leftmost, end-anchored) match with the empty
string, then trims.  The embedding decides membership of a suffix in that
pattern's language directly — leading whitespace, an optional opening
bracket, the year's characters verbatim, an optional closing bracket,
trailing whitespace — and cuts the title at the leftmost matching suffix.
(The year string is digits in practice; regex metacharacters in it are not
modelled.) -/

/-- The characters JS `\s` matches, restricted to ASCII. -/
def isWsC (c : Char) : Bool :=
  c = ' ' || c = '\t' || c = '\n' || c = '\r' || c = '\x0b' || c = '\x0c'

/-- Match a literal character list at the front, returning the remainder. -/
def matchList : List Char → List Char → Option (List Char)
  | [], s => some s
  | _ :: _, [] => none
  | c :: y', d :: s' => if c = d then matchList y' s' else none

/-- The part of the pattern after the year: an optional closing bracket then
whitespace to the end. -/
def matchYearTail (rest : List Char) : Bool :=
  rest.all isWsC ||
    match rest with
    | c :: r => (c = ')' || c = ']') && r.all isWsC
    | [] => false

/-- The pattern minus its leading whitespace: an optional opening bracket,
the year, an optional closing bracket, trailing whitespace, end. -/
def matchCore (y s : List Char) : Bool :=
  (match matchList y s with
   | some r => matchYearTail r
   | none => false) ||
    match s with
    | c :: s' =>
      (c = '(' || c = '[') &&
        match matchList y s' with
        | some r => matchYearTail r
        | none => false
    | [] => false

/-- Whether a character list is in the year pattern's language
`\s* [([]? year [)\]]? \s*`. -/
def matchesPat (y : List Char) : List Char → Bool
  | [] => matchCore y []
  | c :: r => matchCore y (c :: r) || (isWsC c && matchesPat y r)

/-- Replace the leftmost end-anchored pattern match with the empty string:
cut at the first position whose suffix is in the pattern's language. -/
def stripCore (y : List Char) : List Char → List Char
  | [] => []
  | c :: r => if matchesPat y (c :: r) then [] else c :: stripCore y r

/-- JS `String.trim`: drop leading and trailing whitespace. -/
def trimC (s : List Char) : List Char :=
  ((s.dropWhile isWsC).reverse.dropWhile isWsC).reverse

/-- `title.replace(yearRegex, '').trim()` for a known year. -/
def stripYearStr (title year : String) : String :=
  String.mk (trimC (stripCore year.toList title.toList))

/-! ## Data model

`ExistingMeta` carries the work item's already-known attributes read by the
pipeline; `TmdbData` is the raw catalog payload shape `applyTmdbData`
destructures.  `vote_average` is a JSON number the source only stringifies;
it is carried as its decimal string, `none` standing for an absent or zero
(falsy) rating. -/

/-- The fields of `request.existingMeta` the plugin reads. -/
structure ExistingMeta where
  fileType : Option String
  tmdbid : Option String
  imdbid : Option String
  originalTitle : Option String
  fileName : Option String
  movieYear : Option String
  videoType : Option String
  midhash : Option String
deriving DecidableEq

/-- The raw TMDB payload fields `applyTmdbData` reads.  `genres` and
`production_companies` are the element names of the arrays when present
(`none` when absent or not an array). -/
structure TmdbData where
  id : Option Nat
  imdb_id : Option String
  original_title : Option String
  original_name : Option String
  title : Option String
  name : Option String
  release_date : Option String
  first_air_date : Option String
  overview : Option String
  vote_average : Option String
  genres : Option (List String)
  production_companies : Option (List String)
  poster_path : Option String
  backdrop_path : Option String
deriving DecidableEq

/-- The `/find` response buckets: the ids of `movie_results` and
`tv_results`. -/
structure FindResp where
  movie_results : List Nat
  tv_results : List Nat
deriving DecidableEq

/-- One meta-core store operation issued by `applyTmdbData`. -/
inductive StoreOp where
  | merge (cid : String) (metadata : List (String × String))
  | addToSet (cid key value : String)
  | setProp (cid key value : String)
deriving DecidableEq

/-- Completion status reported through `sendCallback`.  (`failed` is the
catch-all branch of the source's try/catch, unreachable in this pure
embedding.) -/
inductive PStatus where
  | completed
  | skipped
  | failed
deriving DecidableEq

/-- Outcomes of the external collaborators for one pipeline run: the TMDB
HTTP endpoints (`Except Unit` errors standing for transport failures), the
JSON cache, and the materializer's identifier computation (`imgCid`,
indexed by image path, kind, title, optional year and catalog id). -/
structure Env where
  findOutcome : String → Except Unit FindResp
  getOutcome : String → String → Except Unit TmdbData
  searchOutcome : String → Option String → String → Except Unit (List Nat)
  cache : String → Option TmdbData
  imgCid : String → String → String → Option String → String → Option String

/-- The plugin configuration snapshot read by `process`. -/
structure Config where
  apiKey : Option String
  forceRecompute : Bool
  language : String

/-- What one `process` run did: the reported status and reason, the store
operations applied, whether the cache was consulted, the cache entry
written, and whether the resolution chain was entered. -/
structure ProcOut where
  status : PStatus
  reason : Option String
  ops : List StoreOp
  cacheRead : Bool
  cacheWrite : Option (String × TmdbData)
  resolverCalled : Bool
deriving DecidableEq

/-! ## Catalog resolver (plugin.ts 261-302 and process 468-491) -/

/-- `getByTmdbId`: fetch the full record; any transport error is caught and
becomes `null`. -/
def getByTmdbId (env : Env) (tmdbId mediaType : String) : Option TmdbData :=
  match env.getOutcome tmdbId mediaType with
  | .ok d => some d
  | .error _ => none

/-- `findByImdbId`: `/find` lookup; the first movie result wins over the
first tv result, its kind taken from the bucket it came from; errors are
caught and become `null`. -/
def findByImdbId (env : Env) (imdbId : String) : Option TmdbData :=
  match env.findOutcome imdbId with
  | .error _ => none
  | .ok r =>
    match r.movie_results.head?, r.tv_results.head? with
    | some i, _ => getByTmdbId env (toString i) "movie"
    | none, some i => getByTmdbId env (toString i) "tv"
    | none, none => none

/-- `searchByTitle`: kind-appropriate search (`tv` for a `tvshow`/`tv` video
type, else `movie`), year parameter only when truthy, first hit fetched in
full; errors are caught and become `null`. -/
def searchByTitle (env : Env) (title : String) (year videoType : Option String) :
    Option TmdbData :=
  let mediaType := if videoType = some "tvshow" ∨ videoType = some "tv" then "tv" else "movie"
  match env.searchOutcome title (if jsTruthy year then year else none) mediaType with
  | .error _ => none
  | .ok results =>
    match results.head? with
    | some i => getByTmdbId env (toString i) mediaType
    | none => none

/-- The title the search strategy queries: preferred original title, else
file name; with a truthy title and year, the trailing year token is stripped
and the result trimmed. -/
def titleQuery (em : Option ExistingMeta) : Option String :=
  let title0 := jsOrS (em.bind (·.originalTitle)) (em.bind (·.fileName))
  let year := em.bind (·.movieYear)
  if jsTruthy title0 && jsTruthy year then
    some (stripYearStr (title0.getD "") (year.getD ""))
  else title0

/-- The title-search strategy of `process` (477-491): query only when the
(possibly stripped) title is truthy. -/
def titleStrategy (env : Env) (em : Option ExistingMeta) : Option TmdbData :=
  match titleQuery em with
  | some t =>
    if t.isEmpty then none
    else searchByTitle env t (em.bind (·.movieYear)) (em.bind (·.videoType))
  | none => none

/-- The resolution chain of `process` (468-491): IMDB cross-reference first
when a truthy id is present, falling through to title search when it yields
nothing. -/
def resolveFresh (env : Env) (em : Option ExistingMeta) : Option TmdbData :=
  let viaImdb :=
    match em.bind (·.imdbid) with
    | some i => if i.isEmpty then none else findByImdbId env i
    | none => none
  match viaImdb with
  | some d => some d
  | none => titleStrategy env em

/-! ## Enrichment writer (`applyTmdbData`, plugin.ts 524-625) -/

/-- `data.id ? String(data.id) : ''` (a 0 id is falsy). -/
def tmdbIdOf (d : TmdbData) : String :=
  match d.id with
  | some n => if n = 0 then "" else toString n
  | none => ""

/-- `data.original_title || data.original_name`. -/
def origTitleOf (d : TmdbData) : Option String := jsOrS d.original_title d.original_name

/-- `data.title || data.name`. -/
def locTitleOf (d : TmdbData) : Option String := jsOrS d.title d.name

/-- `localizedTitle || originalTitle || 'Unknown'`. -/
def displayTitleOf (d : TmdbData) : String :=
  if jsTruthy (locTitleOf d) then (locTitleOf d).getD ""
  else if jsTruthy (origTitleOf d) then (origTitleOf d).getD ""
  else "Unknown"

/-- `data.release_date || data.first_air_date`. -/
def releaseDateOf (d : TmdbData) : Option String := jsOrS d.release_date d.first_air_date

/-- The year variable: `releaseDate.split('-')[0]` when a release date is
truthy, else undefined. -/
def yearOf (d : TmdbData) : Option String :=
  if jsTruthy (releaseDateOf d) then
    some ((((releaseDateOf d).getD "").splitOn "-").headD "")
  else none

/-- The plot key's language code: the part of the configured locale before
the dash, with `en` widened to `eng`. -/
def langKeyOf (lang : String) : String :=
  let c := (lang.splitOn "-").headD ""
  if c = "en" then "eng" else c

/-- The `metadata` object `applyTmdbData` assembles for the merge-write, as
its insertion-ordered key/value list. -/
def metadataOf (lang : String) (d : TmdbData) : List (String × String) :=
  let m1 := if tmdbIdOf d ≠ "" then upsert [] "tmdbid" (tmdbIdOf d) else []
  let m2 := if jsTruthy d.imdb_id then upsert m1 "imdbid" (d.imdb_id.getD "") else m1
  let m3 :=
    if jsTruthy (locTitleOf d) ∧ locTitleOf d ≠ origTitleOf d then
      upsert m2 "title" ((locTitleOf d).getD "")
    else m2
  let m4 :=
    if jsTruthy (origTitleOf d) then upsert m3 "originalTitle" ((origTitleOf d).getD "")
    else m3
  let m5 :=
    if jsTruthy (releaseDateOf d) then upsert m4 "releasedate" ((releaseDateOf d).getD "")
    else m4
  let m6 := if jsTruthy (yearOf d) then upsert m5 "movieYear" ((yearOf d).getD "") else m5
  let m7 :=
    if jsTruthy d.overview then
      upsert (upsert m6 ("plot/" ++ langKeyOf lang) (d.overview.getD ""))
        "plot/eng" (d.overview.getD "")
    else m6
  if jsTruthy d.vote_average then upsert m7 "rating" (d.vote_average.getD "") else m7

/-- The store operations `applyTmdbData` issues, in order: the metadata
merge-write, one add-to-set per genre and per production company, the fixed
provenance tag, and a property write per successfully materialized image
(`imgCid` giving the materializer's outcome). -/
def applyOps (lang : String)
    (imgCid : String → String → String → Option String → String → Option String)
    (cid : String) (d : TmdbData) : List StoreOp :=
  let tmdbId := tmdbIdOf d
  let year := yearOf d
  let displayTitle := displayTitleOf d
  let genreOps :=
    match d.genres with
    | some gs => gs.map fun g => StoreOp.addToSet cid "genres" g
    | none => []
  let studioOps :=
    match d.production_companies with
    | some ps => ps.map fun p => StoreOp.addToSet cid "studio" p
    | none => []
  let posterOps :=
    if jsTruthy d.poster_path ∧ tmdbId ≠ "" then
      match imgCid (d.poster_path.getD "") "poster" displayTitle year tmdbId with
      | some c => [StoreOp.setProp cid "poster" c]
      | none => []
    else []
  let backdropOps :=
    if jsTruthy d.backdrop_path ∧ tmdbId ≠ "" then
      match imgCid (d.backdrop_path.getD "") "backdrop" displayTitle year tmdbId with
      | some c => [StoreOp.setProp cid "backdrop" c]
      | none => []
    else []
  StoreOp.merge cid (metadataOf lang d) ::
    (genreOps ++ studioOps ++ [StoreOp.addToSet cid "tags" "tmdb-verified"] ++
      posterOps ++ backdropOps)

/-! ## Pipeline orchestration (`process`, plugin.ts 405-519) -/

/-- A skip report: nothing touched, reason attached. -/
def skipOut (reason : String) : ProcOut :=
  ⟨.skipped, some reason, [], false, none, false⟩

/-- The cache-hit path (455-465): replay the cached payload through
`applyTmdbData` and report completed. -/
def hitOut (lang : String)
    (imgCid : String → String → String → Option String → String → Option String)
    (cid : String) (cached : TmdbData) : ProcOut :=
  ⟨.completed, none, applyOps lang imgCid cid cached, true, none, false⟩

/-- The fresh-resolution path (468-510): run the strategy chain; on success
apply the payload and cache it under a truthy sampling identifier, on a miss
apply nothing; either way report completed. -/
def freshOut (cfg : Config) (env : Env) (cid : String) (em : Option ExistingMeta)
    (midhash : Option String) (cacheRead : Bool) : ProcOut :=
  match resolveFresh env em with
  | some d =>
    ⟨.completed, none, applyOps cfg.language env.imgCid cid d, cacheRead,
      if jsTruthy midhash then some (midhash.getD "", d) else none, true⟩
  | none => ⟨.completed, none, [], cacheRead, none, true⟩

/-- The pipeline: skip checks (no key, non-video, already resolved without
override), then the cache (only with a truthy sampling identifier and no
override), then fresh resolution. -/
def process (cfg : Config) (env : Env) (cid : String) (em : Option ExistingMeta) :
    ProcOut :=
  if !jsTruthy cfg.apiKey then skipOut "No API key configured"
  else if !(em.bind (·.fileType) == some "video") then skipOut "Not a video file"
  else if jsTruthy (em.bind (·.tmdbid)) && !cfg.forceRecompute then
    skipOut "Already has TMDB data"
  else
    let midhash := em.bind (·.midhash)
    if jsTruthy midhash && !cfg.forceRecompute then
      match env.cache (midhash.getD "") with
      | some cached => hitOut cfg.language env.imgCid cid cached
      | none => freshOut cfg env cid em midhash true
    else freshOut cfg env cid em midhash false

/-! ## Artifact materializer (`downloadAndHashImage`, plugin.ts 353-403) -/

/-- The characters `sanitizeFilename` strips. -/
def isInvalidFilenameChar (c : Char) : Bool :=
  c = '<' || c = '>' || c = ':' || c = '"' || c = '/' ||
  c = '\\' || c = '|' || c = '?' || c = '*'

/-- Collapse every whitespace run to a single space (the flag records
whether the previous kept character came from a run). -/
def collapseWs : Bool → List Char → List Char
  | _, [] => []
  | prev, c :: r =>
    if isWsC c then (if prev then collapseWs true r else ' ' :: collapseWs true r)
    else c :: collapseWs false r

/-- `sanitizeFilename`: strip invalid characters, collapse whitespace,
trim. -/
def sanitizeFilename (name : String) : String :=
  String.mk (trimC (collapseWs false (name.toList.filter fun c => !isInvalidFilenameChar c)))

/-- The suffix after the last occurrence of a separator. -/
def afterLast (sep : Char) : List Char → List Char
  | [] => []
  | c :: r => if c = sep then afterLast sep r else if r.contains sep then afterLast sep r else c :: r

/-- The suffix from the last dot, when one exists. -/
def fromLastDot : List Char → List Char
  | [] => []
  | c :: r => if c = '.' && !r.contains '.' then c :: r else fromLastDot r

/-- `path.extname`: the extension of the path's basename, empty when the
basename has no dot past its first character. -/
def extnameOf (p : String) : String :=
  String.mk
    (match afterLast '/' p.toList with
     | [] => []
     | _ :: r => fromLastDot r)

/-- The TMDB image host prefix. -/
def IMAGE_BASE_URL : String := "https://image.tmdb.org/t/p/original"

/-- The plugin's WebDAV output directory. -/
def PLUGIN_OUTPUT_WEBDAV_PATH : String := "/files/plugin/tmdb"

/-- The deterministic output filename:
sanitized title, optional " (year)", "[tmdb<id>]_<kind>" and the extension. -/
def imageFilename (title : String) (year : Option String) (tmdbId imageType ext : String) :
    String :=
  sanitizeFilename title ++ (if jsTruthy year then " (" ++ year.getD "" ++ ")" else "") ++
    "[tmdb" ++ tmdbId ++ "]_" ++ imageType ++ ext

/-- The WebDAV destination of one artifact (extension from the image path,
defaulting to ".jpg"). -/
def destPathOf (imagePath imageType title : String) (year : Option String)
    (tmdbId : String) : String :=
  let ext0 := extnameOf imagePath
  let ext := if ext0.isEmpty then ".jpg" else ext0
  PLUGIN_OUTPUT_WEBDAV_PATH ++ "/" ++ imageFilename title year tmdbId imageType ext

/-- The materializer's world: whether a WebDAV client is configured, the
stored artifact bytes by path, and the image host's response by URL
(`none` for a failed download or upload). -/
structure MatEnv where
  hasClient : Bool
  davFiles : String → Option (List Nat)
  download : String → Option (List Nat)

/-- One materialization outcome: the updated store, the returned content
identifier, and how many downloads were performed. -/
structure MatResult where
  env : MatEnv
  ref : Option String
  downloads : Nat

/-- `downloadAndHashImage`: nothing without an image path or client; skip
the download when the destination already exists; else download and store;
finally hash the stored artifact over WebDAV. -/
def materialize (env : MatEnv) (imagePath imageType title : String)
    (year : Option String) (tmdbId : String) : MatResult :=
  if imagePath.isEmpty then ⟨env, none, 0⟩
  else if !env.hasClient then ⟨env, none, 0⟩
  else
    let imageUrl := IMAGE_BASE_URL ++ imagePath
    let webdavPath := destPathOf imagePath imageType title year tmdbId
    match env.davFiles webdavPath with
    | some content => ⟨env, some (davHash content), 0⟩
    | none =>
      match env.download imageUrl with
      | none => ⟨env, none, 0⟩
      | some bytes =>
        ⟨⟨env.hasClient, fun p => if p = webdavPath then some bytes else env.davFiles p,
            env.download⟩,
          some (davHash bytes), 1⟩

/-! ## Concrete instances exercised by the closed corollaries below -/

/-- A minimal catalog payload: id 5, original title "A". -/
def demoData : TmdbData :=
  ⟨some 5, none, some "A", none, none, none, none, none, none, none, none, none,
    none, none⟩

/-- A catalog environment whose cross-reference lookup fails, whose search
finds id 5, and whose cache holds the demo payload. -/
def demoEnvHit : Env :=
  ⟨fun _ => .error (), fun _ _ => .ok demoData, fun _ _ _ => .ok [5],
    fun _ => some demoData, fun _ _ _ _ _ => none⟩

/-- The same environment with an empty cache. -/
def demoEnvMiss : Env :=
  ⟨fun _ => .error (), fun _ _ => .ok demoData, fun _ _ _ => .ok [5],
    fun _ => none, fun _ _ _ _ _ => none⟩

/-- An environment where every catalog call fails and the cache is empty. -/
def demoEnvFail : Env :=
  ⟨fun _ => .error (), fun _ _ => .error (), fun _ _ _ => .error (),
    fun _ => none, fun _ _ _ _ _ => none⟩

/-- A video work item with a title and a sampling identifier. -/
def demoMeta : ExistingMeta :=
  ⟨some "video", none, none, some "A", none, none, none, some "mh1"⟩

/-- A video work item carrying only a cross-reference id. -/
def demoMetaImdb : ExistingMeta :=
  ⟨some "video", none, some "tt1", none, none, none, none, none⟩

/-- A video work item already carrying a resolved catalog id. -/
def demoMetaForce : ExistingMeta :=
  ⟨some "video", some "42", none, some "A", none, none, none, some "mh1"⟩

/-- A configuration with an API key and no force-recompute. -/
def demoCfg : Config := ⟨some "key", false, "en-US"⟩

/-- The same configuration with force-recompute set. -/
def demoCfgForce : Config := ⟨some "key", true, "en-US"⟩

/-- A materializer world with an empty store and a 3-byte image download. -/
def demoMatEnv : MatEnv := ⟨true, fun _ => none, fun _ => some [1, 2, 3]⟩

/-! ## Helper lemmas -/

/-- A SHA-256 digest is exactly 32 bytes. -/
theorem sha256_length (m : List Nat) : (sha256 m).length = 32 := by
  simp [sha256, be4]

/-- Every byte of a SHA-256 digest is below 256. -/
theorem sha256_lt (m : List Nat) : ∀ b ∈ sha256 m, b < 256 := by
  intro b hb
  simp only [sha256, be4, List.mem_append, List.mem_cons, List.not_mem_nil,
    or_false] at hb
  omega

/-- The emit loop on 8 buffered bits: one character, 3 bits left. -/
theorem emitChars_8 (v : Nat) : emitChars 8 v 8 = ([b32c (v / 2 ^ 3 % 32)], 3) := rfl

/-- The emit loop on 9 buffered bits: one character, 4 bits left. -/
theorem emitChars_9 (v : Nat) : emitChars 9 v 9 = ([b32c (v / 2 ^ 4 % 32)], 4) := rfl

/-- The emit loop on 10 buffered bits: two characters, 0 bits left. -/
theorem emitChars_10 (v : Nat) :
    emitChars 10 v 10 = ([b32c (v / 2 ^ 5 % 32), b32c (v / 2 ^ 0 % 32)], 0) := rfl

/-- The emit loop on 11 buffered bits: two characters, 1 bit left. -/
theorem emitChars_11 (v : Nat) :
    emitChars 11 v 11 = ([b32c (v / 2 ^ 6 % 32), b32c (v / 2 ^ 1 % 32)], 1) := rfl

/-- The emit loop on 12 buffered bits: two characters, 2 bits left. -/
theorem emitChars_12 (v : Nat) :
    emitChars 12 v 12 = ([b32c (v / 2 ^ 7 % 32), b32c (v / 2 ^ 2 % 32)], 2) := rfl

/-- The source's stateful base-32 loop agrees with RFC 4648 bit regrouping:
with `carry` the bits still buffered in the accumulator's low end, the loop's
output is the base-32 encoding of the carry followed by the remaining bytes'
bits. -/
theorem encodeCore_eq_b32 (bytes : List Nat) :
    ∀ (carry : List Nat) (value : Nat),
      (∀ b ∈ bytes, b < 256) → (∀ x ∈ carry, x < 2) → carry.length ≤ 4 →
      value < 2 ^ 32 → value % 2 ^ carry.length = bitsVal carry →
      encodeCore bytes value carry.length = b32go (carry ++ toBits bytes) := by
  induction bytes with
  | nil =>
    intro carry value _ hc hlen hv hmod
    rcases carry with _ | ⟨x0, _ | ⟨x1, _ | ⟨x2, _ | ⟨x3, _ | rest⟩⟩⟩⟩
    · simp [encodeCore, b32go]
    · have h0 : x0 < 2 := hc x0 (by simp)
      simp only [bitsVal, List.foldl, List.length_cons, List.length_nil,
        Nat.zero_add, List.append_nil] at hmod ⊢
      simp only [encodeCore, b32go]
      norm_num
      congr 1
      omega
    · have h0 : x0 < 2 := hc x0 (by simp)
      have h1 : x1 < 2 := hc x1 (by simp)
      simp only [bitsVal, List.foldl, List.length_cons, List.length_nil,
        Nat.zero_add, List.append_nil] at hmod ⊢
      simp only [encodeCore, b32go]
      norm_num
      congr 1
      omega
    · have h0 : x0 < 2 := hc x0 (by simp)
      have h1 : x1 < 2 := hc x1 (by simp)
      have h2 : x2 < 2 := hc x2 (by simp)
      simp only [bitsVal, List.foldl, List.length_cons, List.length_nil,
        Nat.zero_add, List.append_nil] at hmod ⊢
      simp only [encodeCore, b32go]
      norm_num
      congr 1
      omega
    · have h0 : x0 < 2 := hc x0 (by simp)
      have h1 : x1 < 2 := hc x1 (by simp)
      have h2 : x2 < 2 := hc x2 (by simp)
      have h3 : x3 < 2 := hc x3 (by simp)
      simp only [bitsVal, List.foldl, List.length_cons, List.length_nil,
        Nat.zero_add, List.append_nil] at hmod ⊢
      simp only [encodeCore, b32go]
      norm_num
      congr 1
      omega
    · simp at hlen
  | cons byte rest ih =>
    intro carry value hb hc hlen hv hmod
    have hbyte : byte < 256 := hb byte (by simp)
    have hbr : ∀ b ∈ rest, b < 256 := fun b h => hb b (by simp [h])
    rcases carry with _ | ⟨x0, _ | ⟨x1, _ | ⟨x2, _ | ⟨x3, _ | ⟨x4, t4⟩⟩⟩⟩⟩
    · -- zero carried bits: one character, three bits remain
      simp only [List.length_nil, pow_zero, Nat.mod_one, bitsVal, List.foldl] at hmod
      simp only [List.length_nil, encodeCore, Nat.zero_add, emitChars_8]
      have hIH := ih [byte / 4 % 2, byte / 2 % 2, byte % 2] ((value * 256 + byte) % 2 ^ 32)
        hbr (by simp; omega) (by simp) (Nat.mod_lt _ (by norm_num)) (by simp [bitsVal]; omega)
      simp only [List.length_cons, List.length_nil, Nat.zero_add, Nat.reduceAdd] at hIH
      rw [hIH]
      simp only [toBits, byteBits, List.nil_append, List.cons_append, List.append_eq,
        b32go, List.cons.injEq, eq_self_iff_true, and_true]
      congr 1
      omega
    · -- one carried bit: one character, four bits remain
      have h0 : x0 < 2 := hc x0 (by simp)
      simp only [bitsVal, List.foldl, List.length_cons, List.length_nil,
        Nat.zero_add, Nat.reduceAdd] at hmod
      simp only [List.length_cons, List.length_nil, encodeCore, Nat.zero_add,
        Nat.reduceAdd, emitChars_9]
      have hIH := ih [byte / 8 % 2, byte / 4 % 2, byte / 2 % 2, byte % 2]
        ((value * 256 + byte) % 2 ^ 32) hbr (by simp; omega) (by simp)
        (Nat.mod_lt _ (by norm_num)) (by simp [bitsVal]; omega)
      simp only [List.length_cons, List.length_nil, Nat.zero_add, Nat.reduceAdd] at hIH
      rw [hIH]
      simp only [toBits, byteBits, List.cons_append, List.nil_append, List.append_eq,
        b32go, List.cons.injEq, eq_self_iff_true, and_true]
      congr 1
      omega
    · -- two carried bits: two characters, no bits remain
      have h0 : x0 < 2 := hc x0 (by simp)
      have h1 : x1 < 2 := hc x1 (by simp)
      simp only [bitsVal, List.foldl, List.length_cons, List.length_nil,
        Nat.zero_add, Nat.reduceAdd] at hmod
      simp only [List.length_cons, List.length_nil, encodeCore, Nat.zero_add,
        Nat.reduceAdd, emitChars_10]
      have hIH := ih [] ((value * 256 + byte) % 2 ^ 32) hbr (by simp) (by simp)
        (Nat.mod_lt _ (by norm_num))
        (by simp only [bitsVal, List.length_nil, List.foldl_nil, pow_zero, Nat.mod_one])
      simp only [List.length_nil] at hIH
      rw [hIH]
      simp only [toBits, byteBits, List.cons_append, List.nil_append, List.append_eq,
        b32go, List.cons.injEq, eq_self_iff_true, and_true]
      constructor
      · congr 1
        omega
      · congr 1
        omega
    · -- three carried bits: two characters, one bit remains
      have h0 : x0 < 2 := hc x0 (by simp)
      have h1 : x1 < 2 := hc x1 (by simp)
      have h2 : x2 < 2 := hc x2 (by simp)
      simp only [bitsVal, List.foldl, List.length_cons, List.length_nil,
        Nat.zero_add, Nat.reduceAdd] at hmod
      simp only [List.length_cons, List.length_nil, encodeCore, Nat.zero_add,
        Nat.reduceAdd, emitChars_11]
      have hIH := ih [byte % 2] ((value * 256 + byte) % 2 ^ 32) hbr (by simp; omega)
        (by simp) (Nat.mod_lt _ (by norm_num)) (by simp [bitsVal]; omega)
      simp only [List.length_cons, List.length_nil, Nat.zero_add] at hIH
      rw [hIH]
      simp only [toBits, byteBits, List.cons_append, List.nil_append, List.append_eq,
        b32go, List.cons.injEq, eq_self_iff_true, and_true]
      constructor
      · congr 1
        omega
      · congr 1
        omega
    · -- four carried bits: two characters, two bits remain
      have h0 : x0 < 2 := hc x0 (by simp)
      have h1 : x1 < 2 := hc x1 (by simp)
      have h2 : x2 < 2 := hc x2 (by simp)
      have h3 : x3 < 2 := hc x3 (by simp)
      simp only [bitsVal, List.foldl, List.length_cons, List.length_nil,
        Nat.zero_add, Nat.reduceAdd] at hmod
      simp only [List.length_cons, List.length_nil, encodeCore, Nat.zero_add,
        Nat.reduceAdd, emitChars_12]
      have hIH := ih [byte / 2 % 2, byte % 2] ((value * 256 + byte) % 2 ^ 32) hbr
        (by simp; omega) (by simp) (Nat.mod_lt _ (by norm_num)) (by simp [bitsVal]; omega)
      simp only [List.length_cons, List.length_nil, Nat.zero_add, Nat.reduceAdd] at hIH
      rw [hIH]
      simp only [toBits, byteBits, List.cons_append, List.nil_append, List.append_eq,
        b32go, List.cons.injEq, eq_self_iff_true, and_true]
      constructor
      · congr 1
        omega
      · congr 1
        omega
    · simp at hlen

/-- Looking up the assigned key after a JS object assignment yields the
assigned value. -/
theorem lookup_upsert (l : List (String × String)) (k v : String) :
    (upsert l k v).lookup k = some v := by
  induction l with
  | nil => simp [upsert, List.lookup]
  | cons p rest ih =>
    obtain ⟨k', v'⟩ := p
    by_cases h : k' = k
    · subst h
      simp [upsert, List.lookup]
    · have hbeq : (k == k') = false := beq_eq_false_iff_ne.mpr (Ne.symm h)
      simp [upsert, h, List.lookup, hbeq, ih]

/-- A JS object assignment leaves every other key's lookup unchanged. -/
theorem lookup_upsert_ne (l : List (String × String)) (k k' v : String) (h : k ≠ k') :
    (upsert l k' v).lookup k = l.lookup k := by
  have hbeq : (k == k') = false := beq_eq_false_iff_ne.mpr h
  induction l with
  | nil => simp [upsert, List.lookup, hbeq]
  | cons p rest ih =>
    obtain ⟨a, b⟩ := p
    by_cases ha : a = k'
    · subst ha
      simp [upsert, List.lookup, hbeq]
    · simp [upsert, ha, List.lookup, ih]

/-- JS truthiness of a defined optional string. -/
theorem jsTruthy_some (s : String) : jsTruthy (some s) = !s.isEmpty := rfl

/-- JS truthiness of an undefined optional string. -/
theorem jsTruthy_none : jsTruthy none = false := rfl

/-- A non-empty string's `isEmpty` is false. -/
theorem isEmpty_false_of_ne (s : String) (h : s ≠ "") : s.isEmpty = false := by
  cases hh : s.isEmpty
  · rfl
  · exact absurd ((String.isEmpty_iff s).mp hh) h

/-- A plot key never collides with the `title` key. -/
theorem plotKey_ne_title (s : String) : "plot/" ++ s ≠ "title" := by
  intro h
  have h2 : ("plot/" ++ s).data = "title".data := by rw [h]
  rw [String.data_append] at h2
  simp at h2

/-- A plot key never collides with the `originalTitle` key. -/
theorem plotKey_ne_originalTitle (s : String) : "plot/" ++ s ≠ "originalTitle" := by
  intro h
  have h2 : ("plot/" ++ s).data = "originalTitle".data := by rw [h]
  rw [String.data_append] at h2
  simp at h2

/-! ## Claim theorems -/

/-- C1: the bytes hashed by the content addresser are the entire content when
the size is at most 1 MiB (hence in particular at exactly 1 MiB) and the
1 MiB window starting at offset `floor((size - 1MiB) / 2)` when the size
exceeds 1 MiB (hence in particular at 1 MiB + 1 byte); consequently two byte
sources of identical size and identical size-determined sample produce the
same identifier. -/
theorem C1_sampling_policy (file f g : List Nat) :
    (file.length ≤ SAMPLE_SIZE → sampleSync file = file) ∧
    (SAMPLE_SIZE < file.length →
      (sampleSync file).length = SAMPLE_SIZE ∧
      ∀ i < SAMPLE_SIZE,
        (sampleSync file).get? i = file.get? ((file.length - SAMPLE_SIZE) / 2 + i)) ∧
    (f.length = g.length → sampleSync f = sampleSync g →
      computeMidHash256Sync f = computeMidHash256Sync g) := by
  refine ⟨?_, ?_, ?_⟩
  · intro h
    simp [sampleSync, h, readChunk]
  · intro h
    have hn : ¬ file.length ≤ SAMPLE_SIZE := by omega
    have hoff : (file.length - SAMPLE_SIZE) / 2 + SAMPLE_SIZE ≤ file.length := by omega
    constructor
    · simp only [sampleSync, hn, if_false, readChunk, List.length_take, List.length_drop]
      omega
    · intro i hi
      simp only [sampleSync, hn, if_false, readChunk]
      rw [List.get?_take hi, List.get?_drop]
  · intro h1 h2
    unfold computeMidHash256Sync
    rw [h1, h2]

/-- C1 witness: a 2-byte file is sampled whole; a file one byte past 1 MiB is
sampled by a 1 MiB window; equal (size, sample) gives an equal identifier. -/
theorem C1_sampling_policy_witness :
    ([1, 2].length ≤ SAMPLE_SIZE ∧ sampleSync [1, 2] = [1, 2]) ∧
    (SAMPLE_SIZE < (List.replicate (SAMPLE_SIZE + 1) 3).length ∧
      (sampleSync (List.replicate (SAMPLE_SIZE + 1) 3)).length = SAMPLE_SIZE) ∧
    computeMidHash256Sync [1, 2] = computeMidHash256Sync [1, 2] := by
  have hsmall : ([1, 2] : List Nat).length ≤ SAMPLE_SIZE := by norm_num [SAMPLE_SIZE]
  have hbig : SAMPLE_SIZE < (List.replicate (SAMPLE_SIZE + 1) 3).length := by
    rw [List.length_replicate]
    omega
  exact ⟨⟨hsmall, (C1_sampling_policy [1, 2] [] []).1 hsmall⟩,
    ⟨hbig, ((C1_sampling_policy (List.replicate (SAMPLE_SIZE + 1) 3) [] []).2.1 hbig).1⟩,
    (C1_sampling_policy [] [1, 2] [1, 2]).2.2 rfl rfl⟩

/-- C2: the local-filesystem and WebDAV range-read content addressers agree:
when the WebDAV stat reports the stored length and range reads return the
stored bytes, both return the same identifier string. -/
theorem C2_backend_equivalence (statSize : Nat) (file : List Nat)
    (h : statSize = file.length) :
    computeMidHash256WebDAV statSize file = computeMidHash256Sync file := by
  subst h
  have hS : SAMPLE_SIZE = 1024 * 1024 := rfl
  unfold computeMidHash256WebDAV computeMidHash256Sync sampleSync
  by_cases hle : file.length ≤ SAMPLE_SIZE
  · simp only [hle, if_true, davReadBytes, readChunk]
    cases file with
    | nil => simp
    | cons a t =>
      have heq : (a :: t).length - 1 - 0 + 1 = (a :: t).length := by
        simp only [List.length_cons]
        omega
      rw [heq]
  · simp only [hle, if_false, davReadBytes, readChunk]
    have heq : (file.length - SAMPLE_SIZE) / 2 + SAMPLE_SIZE - 1 -
        (file.length - SAMPLE_SIZE) / 2 + 1 = SAMPLE_SIZE := by omega
    rw [heq]

/-- C2 witness: the two backends agree on a concrete 3-byte file. -/
theorem C2_backend_equivalence_witness :
    (3 : Nat) = ([9, 9, 9] : List Nat).length ∧
      computeMidHash256WebDAV 3 [9, 9, 9] = computeMidHash256Sync [9, 9, 9] :=
  ⟨rfl, C2_backend_equivalence 3 [9, 9, 9] rfl⟩

/-- C3: the identifier is the SHA-256 digest of the 8-byte big-endian size
concatenated with the sample, packed as `[0x01 version, varint codec tag,
varint hash-function tag, 0x20 length tag, 32-byte digest]`, encoded in
lowercase base-32 with no padding behind a multibase 'b'; and a decoder
recovers the hash kind and digest length from the tags alone. -/
theorem C3_identifier_format (fileSize : Nat) (sampleData : List Nat) :
    computeMidHash256FromData fileSize sampleData = specAddressOf fileSize sampleData ∧
    decodeCid (cidBytesOf fileSize sampleData) =
      some (4096, 4096, 32, sha256 (be8 fileSize ++ sampleData)) := by
  constructor
  · have hbytes : ∀ b ∈ cidBytesOf fileSize sampleData, b < 256 := by
      intro b hb
      simp only [cidBytesOf, List.mem_cons] at hb
      rcases hb with rfl | rfl | rfl | rfl | rfl | rfl | h
      · norm_num
      · norm_num
      · norm_num
      · norm_num
      · norm_num
      · norm_num
      · exact sha256_lt _ b h
    have henc := encodeCore_eq_b32 (cidBytesOf fileSize sampleData) [] 0 hbytes
      (by simp) (by simp) (by norm_num) (by simp [bitsVal])
    simp only [List.length_nil, List.nil_append] at henc
    have hv : specVarint 8 4096 = [128, 32] := rfl
    unfold computeMidHash256FromData specAddressOf
    rw [henc, hv]
    rfl
  · simp only [cidBytesOf, decodeCid, decodeVarint]
    norm_num [decodeVarint, sha256_length]

/-- C9: with a usable title and a known year, a trailing year token
(optionally bracketed or parenthesised, with surrounding whitespace) is
stripped from the title's end before the search query is issued: concretely,
"Sintel 2010" with year "2010" queries "Sintel"; generally, whenever the
title ends in a suffix matching the year pattern, the pre-trim result cuts
the title at or before that suffix's start; and the query the pipeline
issues is exactly the stripped title. -/
theorem C9_year_stripping :
    stripYearStr "Sintel 2010" "2010" = "Sintel" ∧
    (∀ (base suf y : List Char), matchesPat y suf = true →
      ∃ p, p ≤ base.length ∧ stripCore y (base ++ suf) = (base ++ suf).take p) ∧
    (∀ (em : ExistingMeta) (t y : String), em.originalTitle = some t → t ≠ "" →
      em.movieYear = some y → y ≠ "" →
      titleQuery (some em) = some (stripYearStr t y)) := by
  refine ⟨by decide, ?_, ?_⟩
  · intro base
    induction base with
    | nil =>
      intro suf y h
      refine ⟨0, by simp, ?_⟩
      cases suf with
      | nil => simp [stripCore]
      | cons c r => simp [stripCore, h]
    | cons c b' ih =>
      intro suf y h
      by_cases hm : matchesPat y (c :: (b' ++ suf)) = true
      · exact ⟨0, by simp, by simp [stripCore, hm]⟩
      · obtain ⟨p, hp, he⟩ := ih suf y h
        refine ⟨p + 1, by simp [hp], ?_⟩
        simp [stripCore, hm, he]
  · intro em t y ht htne hy hyne
    have hte : t.isEmpty = false := by
      cases h : t.isEmpty
      · rfl
      · exact absurd ((String.isEmpty_iff t).mp h) htne
    have hye : y.isEmpty = false := by
      cases h : y.isEmpty
      · rfl
      · exact absurd ((String.isEmpty_iff y).mp h) hyne
    simp [titleQuery, jsOrS, jsTruthy, ht, hy, hte, hye]

/-- C9 witness: the pattern matches " 2010" and the strip cuts it; the
pipeline queries the stripped "Sintel". -/
theorem C9_year_stripping_witness :
    (matchesPat "2010".toList " 2010".toList = true ∧
      ∃ p, p ≤ "Sintel".toList.length ∧
        stripCore "2010".toList ("Sintel".toList ++ " 2010".toList) =
          ("Sintel".toList ++ " 2010".toList).take p) ∧
    titleQuery (some ⟨some "video", none, none, some "Sintel 2010", none,
        some "2010", none, none⟩) =
      some (stripYearStr "Sintel 2010" "2010") :=
  ⟨⟨by decide, C9_year_stripping.2.1 _ _ _ (by decide)⟩,
    C9_year_stripping.2.2 _ "Sintel 2010" "2010" rfl (by decide) rfl (by decide)⟩

/-- A conditional JS assignment to a different key leaves a lookup
unchanged. -/
theorem lookup_cond_upsert_ne (c : Prop) [Decidable c] (l : List (String × String))
    (k k' v : String) (h : k ≠ k') :
    (if c then upsert l k' v else l).lookup k = l.lookup k := by
  by_cases hc : c <;> simp [hc, lookup_upsert_ne _ _ _ _ h]

/-- A conditional pair of JS assignments to different keys leaves a lookup
unchanged. -/
theorem lookup_cond_upsert2_ne (c : Prop) [Decidable c] (l : List (String × String))
    (k k1 v1 k2 v2 : String) (h1 : k ≠ k1) (h2 : k ≠ k2) :
    (if c then upsert (upsert l k1 v1) k2 v2 else l).lookup k = l.lookup k := by
  by_cases hc : c <;>
    simp [hc, lookup_upsert_ne _ _ _ _ h2, lookup_upsert_ne _ _ _ _ h1]

/-- The first JS assignment's mirror image: a conditional whose else-branch
assigns a different key leaves a lookup unchanged. -/
theorem lookup_cond_upsert_ne_swap (c : Prop) [Decidable c] (l : List (String × String))
    (k k' v : String) (h : k ≠ k') :
    (if c then l else upsert l k' v).lookup k = l.lookup k := by
  by_cases hc : c <;> simp [hc, lookup_upsert_ne _ _ _ _ h]

/-- The merged metadata's `title` entry: present exactly when the localized
title is truthy and differs from the original title. -/
theorem lookup_title_metadataOf (lang : String) (d : TmdbData) :
    (metadataOf lang d).lookup "title" =
      if jsTruthy (locTitleOf d) ∧ locTitleOf d ≠ origTitleOf d then
        some ((locTitleOf d).getD "")
      else none := by
  unfold metadataOf
  rw [lookup_cond_upsert_ne _ _ _ _ _ (by decide : ("title" : String) ≠ "rating"),
    lookup_cond_upsert2_ne _ _ _ _ _ _ _
      (Ne.symm (plotKey_ne_title (langKeyOf lang))) (by decide : ("title" : String) ≠ "plot/eng"),
    lookup_cond_upsert_ne _ _ _ _ _ (by decide : ("title" : String) ≠ "movieYear"),
    lookup_cond_upsert_ne _ _ _ _ _ (by decide : ("title" : String) ≠ "releasedate"),
    lookup_cond_upsert_ne _ _ _ _ _ (by decide : ("title" : String) ≠ "originalTitle")]
  by_cases ht : jsTruthy (locTitleOf d) = true ∧ locTitleOf d ≠ origTitleOf d
  · rw [if_pos ht, if_pos ht]
    exact lookup_upsert _ _ _
  · rw [if_neg ht, if_neg ht,
      lookup_cond_upsert_ne _ _ _ _ _ (by decide : ("title" : String) ≠ "imdbid"),
      lookup_cond_upsert_ne _ _ _ _ _ (by decide : ("title" : String) ≠ "tmdbid")]
    simp [List.lookup]

/-- The merged metadata's `originalTitle` entry: present exactly when the
original title is truthy. -/
theorem lookup_originalTitle_metadataOf (lang : String) (d : TmdbData) :
    (metadataOf lang d).lookup "originalTitle" =
      if jsTruthy (origTitleOf d) then some ((origTitleOf d).getD "") else none := by
  unfold metadataOf
  rw [lookup_cond_upsert_ne _ _ _ _ _ (by decide : ("originalTitle" : String) ≠ "rating"),
    lookup_cond_upsert2_ne _ _ _ _ _ _ _
      (Ne.symm (plotKey_ne_originalTitle (langKeyOf lang)))
      (by decide : ("originalTitle" : String) ≠ "plot/eng"),
    lookup_cond_upsert_ne _ _ _ _ _ (by decide : ("originalTitle" : String) ≠ "movieYear"),
    lookup_cond_upsert_ne _ _ _ _ _ (by decide : ("originalTitle" : String) ≠ "releasedate")]
  by_cases ho : jsTruthy (origTitleOf d) = true
  · rw [if_pos ho, if_pos ho]
    exact lookup_upsert _ _ _
  · rw [if_neg ho, if_neg ho,
      lookup_cond_upsert_ne _ _ _ _ _ (by decide : ("originalTitle" : String) ≠ "title"),
      lookup_cond_upsert_ne _ _ _ _ _ (by decide : ("originalTitle" : String) ≠ "imdbid"),
      lookup_cond_upsert_ne _ _ _ _ _ (by decide : ("originalTitle" : String) ≠ "tmdbid")]
    simp [List.lookup]

/-- C10: the merge-write carries a `title` key exactly when the payload's
localized title is present (truthy) and differs from the original title —
otherwise no `title` key is written — while a truthy original title is
always written under `originalTitle`. -/
theorem C10_title_only_when_localized_differs (lang : String) (d : TmdbData) :
    (jsTruthy (locTitleOf d) = true → locTitleOf d ≠ origTitleOf d →
      (metadataOf lang d).lookup "title" = some ((locTitleOf d).getD "")) ∧
    (jsTruthy (locTitleOf d) = false ∨ locTitleOf d = origTitleOf d →
      (metadataOf lang d).lookup "title" = none) ∧
    (jsTruthy (origTitleOf d) = true →
      (metadataOf lang d).lookup "originalTitle" = some ((origTitleOf d).getD "")) := by
  refine ⟨?_, ?_, ?_⟩
  · intro h1 h2
    rw [lookup_title_metadataOf, if_pos ⟨h1, h2⟩]
  · intro h
    rw [lookup_title_metadataOf, if_neg]
    rintro ⟨h1, h2⟩
    rcases h with h | h
    · rw [h1] at h
      exact Bool.true_eq_false.mp h
    · exact h2 h
  · intro h
    rw [lookup_originalTitle_metadataOf, if_pos h]

/-- C10 witness: a payload whose localized title differs gets a `title` key;
one whose localized title equals the original does not; the original title is
written either way. -/
theorem C10_title_only_when_localized_differs_witness :
    ((metadataOf "en-US" ⟨none, none, some "Orig", none, some "Loc", none, none,
        none, none, none, none, none, none, none⟩).lookup "title" = some "Loc") ∧
    ((metadataOf "en-US" ⟨none, none, some "Same", none, some "Same", none, none,
        none, none, none, none, none, none, none⟩).lookup "title" = none) ∧
    ((metadataOf "en-US" ⟨none, none, some "Same", none, some "Same", none, none,
        none, none, none, none, none, none, none⟩).lookup "originalTitle" =
      some "Same") := by
  refine ⟨?_, ?_, ?_⟩
  · exact (C10_title_only_when_localized_differs "en-US" _).1 (by decide) (by decide)
  · exact (C10_title_only_when_localized_differs "en-US" _).2.1 (by decide)
  · exact (C10_title_only_when_localized_differs "en-US" _).2.2 (by decide)

/-- C4: with the same configuration, the cache-hit replay of a payload and a
fresh resolution returning that same payload apply exactly the same store
operations, because both feed the payload through the same apply function. -/
theorem C4_cache_replay_equivalence (cfg : Config) (env env2 : Env) (cid : String)
    (em : Option ExistingMeta) (p : TmdbData) (mh : String)
    (hforce : cfg.forceRecompute = false)
    (hkey : jsTruthy cfg.apiKey = true)
    (hft : em.bind (·.fileType) = some "video")
    (htm : jsTruthy (em.bind (·.tmdbid)) = false)
    (hmh : em.bind (·.midhash) = some mh) (hmhne : mh ≠ "")
    (hhit : env.cache mh = some p)
    (himg : env2.imgCid = env.imgCid)
    (hmiss : env2.cache mh = none)
    (hres : resolveFresh env2 em = some p) :
    (process cfg env cid em).ops = (process cfg env2 cid em).ops := by
  have hmhe : mh.isEmpty = false := isEmpty_false_of_ne mh hmhne
  simp [process, hitOut, freshOut, jsTruthy_some, hkey, hft, htm, hforce, hmh, hmhe,
    hhit, hmiss, hres, himg]

/-- C4 witness: replaying the cached demo payload and freshly resolving it
apply the same store operations. -/
theorem C4_cache_replay_equivalence_witness :
    demoEnvHit.cache "mh1" = some demoData ∧
    resolveFresh demoEnvMiss (some demoMeta) = some demoData ∧
    (process demoCfg demoEnvHit "c1" (some demoMeta)).ops =
      (process demoCfg demoEnvMiss "c1" (some demoMeta)).ops :=
  ⟨rfl, rfl,
    C4_cache_replay_equivalence demoCfg demoEnvHit demoEnvMiss "c1" (some demoMeta)
      demoData "mh1" rfl rfl rfl rfl rfl (by decide) rfl rfl rfl rfl⟩

/-- C5: every strategy failure is non-fatal: a transport error or empty
result in the cross-reference lookup yields `none` for that strategy; a
transport error in search yields `none`; when the cross-reference strategy
yields `none`, resolution falls through to the title strategy; and when
every strategy yields nothing, the overall result is `none`, not an error. -/
theorem C5_fallback_and_nonfatal (env : Env) :
    (∀ i, env.findOutcome i = .error () → findByImdbId env i = none) ∧
    (∀ i r, env.findOutcome i = .ok r → r.movie_results = [] → r.tv_results = [] →
      findByImdbId env i = none) ∧
    (∀ t y v, env.searchOutcome t (if jsTruthy y then y else none)
        (if v = some "tvshow" ∨ v = some "tv" then "tv" else "movie") = .error () →
      searchByTitle env t y v = none) ∧
    (∀ em i, em.bind (·.imdbid) = some i → i ≠ "" → findByImdbId env i = none →
      resolveFresh env em = titleStrategy env em) ∧
    (∀ em, (∀ i, em.bind (·.imdbid) = some i → i ≠ "" → findByImdbId env i = none) →
      titleStrategy env em = none → resolveFresh env em = none) := by
  refine ⟨?_, ?_, ?_, ?_, ?_⟩
  · intro i h
    simp [findByImdbId, h]
  · intro i r h hm htv
    simp [findByImdbId, h, hm, htv]
  · intro t y v h
    simp only [searchByTitle]
    rw [h]
  · intro em i h hne hnone
    have hie := isEmpty_false_of_ne i hne
    simp [resolveFresh, h, hie, hnone]
  · intro em hall ht
    cases him : em.bind (·.imdbid) with
    | none => simp [resolveFresh, him, ht]
    | some i =>
      by_cases hie : i = ""
      · subst hie
        have hemp : ("" : String).isEmpty = true := rfl
        simp [resolveFresh, him, hemp, ht]
      · have hf := hall i him hie
        have hei := isEmpty_false_of_ne i hie
        simp [resolveFresh, him, hei, hf, ht]

/-- C5 witness: with every catalog call failing, the cross-reference lookup
and the search yield `none`, resolution falls through to title search, and
the overall result is `none`. -/
theorem C5_fallback_and_nonfatal_witness :
    findByImdbId demoEnvFail "tt1" = none ∧
    searchByTitle demoEnvFail "A" none none = none ∧
    resolveFresh demoEnvFail (some demoMetaImdb) =
      titleStrategy demoEnvFail (some demoMetaImdb) ∧
    resolveFresh demoEnvFail (some demoMetaImdb) = none :=
  ⟨(C5_fallback_and_nonfatal demoEnvFail).1 "tt1" rfl,
    (C5_fallback_and_nonfatal demoEnvFail).2.2.1 "A" none none rfl,
    (C5_fallback_and_nonfatal demoEnvFail).2.2.2.1 (some demoMetaImdb) "tt1" rfl
      (by decide) ((C5_fallback_and_nonfatal demoEnvFail).1 "tt1" rfl),
    (C5_fallback_and_nonfatal demoEnvFail).2.2.2.2 (some demoMetaImdb)
      (fun i _ _ => (C5_fallback_and_nonfatal demoEnvFail).1 i rfl) rfl⟩

/-- C7: with force-recompute set, an item that already carries a resolved
catalog id is not skipped, the cached payload is not read, a fresh resolver
call is made, and a successful result overwrites the cache entry under the
available sampling identifier. -/
theorem C7_force_recompute (cfg : Config) (env : Env) (cid : String)
    (em : Option ExistingMeta) (mh : String) (d : TmdbData)
    (hforce : cfg.forceRecompute = true)
    (hkey : jsTruthy cfg.apiKey = true)
    (hft : em.bind (·.fileType) = some "video")
    (htm : jsTruthy (em.bind (·.tmdbid)) = true)
    (hmh : em.bind (·.midhash) = some mh) (hmhne : mh ≠ "")
    (hres : resolveFresh env em = some d) :
    (process cfg env cid em).status = .completed ∧
    (process cfg env cid em).cacheRead = false ∧
    (process cfg env cid em).resolverCalled = true ∧
    (process cfg env cid em).cacheWrite = some (mh, d) ∧
    (process cfg env cid em).ops = applyOps cfg.language env.imgCid cid d := by
  have hmhe : mh.isEmpty = false := isEmpty_false_of_ne mh hmhne
  simp [process, freshOut, jsTruthy_some, hkey, hft, htm, hforce, hmh, hmhe, hres]

/-- C7 witness: a force-recompute run on an already-resolved demo item
completes with a fresh resolution and overwrites the cache entry. -/
theorem C7_force_recompute_witness :
    resolveFresh demoEnvMiss (some demoMetaForce) = some demoData ∧
    (process demoCfgForce demoEnvMiss "c1" (some demoMetaForce)).status = .completed ∧
    (process demoCfgForce demoEnvMiss "c1" (some demoMetaForce)).cacheRead = false ∧
    (process demoCfgForce demoEnvMiss "c1" (some demoMetaForce)).resolverCalled = true ∧
    (process demoCfgForce demoEnvMiss "c1" (some demoMetaForce)).cacheWrite =
      some ("mh1", demoData) :=
  ⟨rfl,
    (C7_force_recompute demoCfgForce demoEnvMiss "c1" (some demoMetaForce) "mh1"
      demoData rfl rfl rfl rfl rfl (by decide) rfl).1,
    (C7_force_recompute demoCfgForce demoEnvMiss "c1" (some demoMetaForce) "mh1"
      demoData rfl rfl rfl rfl rfl (by decide) rfl).2.1,
    (C7_force_recompute demoCfgForce demoEnvMiss "c1" (some demoMetaForce) "mh1"
      demoData rfl rfl rfl rfl rfl (by decide) rfl).2.2.1,
    (C7_force_recompute demoCfgForce demoEnvMiss "c1" (some demoMetaForce) "mh1"
      demoData rfl rfl rfl rfl rfl (by decide) rfl).2.2.2.1⟩

/-- The fresh-resolution path always reports completed, whether or not a
record was found. -/
theorem freshOut_completed (cfg : Config) (env : Env) (cid : String)
    (em : Option ExistingMeta) (mh : Option String) (cr : Bool) :
    (freshOut cfg env cid em mh cr).status = .completed := by
  unfold freshOut
  cases h : resolveFresh env em <;> simp [h]

/-- Once the three skip checks pass, the pipeline reports completed on every
cache and resolution outcome. -/
theorem process_completed_of_checks (cfg : Config) (env : Env) (cid : String)
    (em : Option ExistingMeta)
    (hk : jsTruthy cfg.apiKey = true)
    (hft : em.bind (·.fileType) = some "video")
    (h3 : (jsTruthy (em.bind (·.tmdbid)) && !cfg.forceRecompute) = false) :
    (process cfg env cid em).status = .completed := by
  cases hmb : (jsTruthy (em.bind fun x => x.midhash) && !cfg.forceRecompute) with
  | false => simp [process, hk, hft, h3, hmb, freshOut_completed]
  | true =>
    cases hc : env.cache ((em.bind fun x => x.midhash).getD "") with
    | some d => simp [process, hk, hft, h3, hmb, hc, hitOut]
    | none => simp [process, hk, hft, h3, hmb, hc, freshOut_completed]

/-- C6: the pipeline reports skipped — touching neither cache, resolver nor
store — exactly when no API key is configured, the item is not a video, or
it already carries a catalog id without the force override; a video item
whose resolution finds nothing instead reports completed with zero store
operations. -/
theorem C6_skip_vs_miss (cfg : Config) (env : Env) (cid : String)
    (em : Option ExistingMeta) :
    ((process cfg env cid em).status = .skipped ↔
      (jsTruthy cfg.apiKey = false ∨ em.bind (·.fileType) ≠ some "video" ∨
        (jsTruthy (em.bind (·.tmdbid)) = true ∧ cfg.forceRecompute = false))) ∧
    ((process cfg env cid em).status = .skipped →
      (process cfg env cid em).ops = [] ∧ (process cfg env cid em).cacheRead = false ∧
      (process cfg env cid em).cacheWrite = none ∧
      (process cfg env cid em).resolverCalled = false) ∧
    (jsTruthy cfg.apiKey = true → em.bind (·.fileType) = some "video" →
      (jsTruthy (em.bind (·.tmdbid)) = false ∨ cfg.forceRecompute = true) →
      (∀ mh, em.bind (·.midhash) = some mh → env.cache mh = none) →
      resolveFresh env em = none →
      (process cfg env cid em).status = .completed ∧
        (process cfg env cid em).ops = []) := by
  refine ⟨?_, ?_, ?_⟩
  · cases hk : jsTruthy cfg.apiKey with
    | false => simp [process, hk, skipOut]
    | true =>
      by_cases hft : em.bind (·.fileType) = some "video"
      · cases htm : jsTruthy (em.bind (·.tmdbid)) with
        | false =>
          have hc := process_completed_of_checks cfg env cid em hk hft (by simp [htm])
          simp [hc, hk, hft, htm]
        | true =>
          cases hfo : cfg.forceRecompute with
          | false => simp [process, hk, hft, htm, hfo, skipOut]
          | true =>
            have hc := process_completed_of_checks cfg env cid em hk hft
              (by simp [htm, hfo])
            simp [hc, hk, hft, htm, hfo]
      · have hbf : (em.bind (·.fileType) == some "video") = false :=
          beq_eq_false_iff_ne.mpr hft
        simp [process, hk, hbf, skipOut, hft]
  · intro hs
    cases hk : jsTruthy cfg.apiKey with
    | false => simp [process, hk, skipOut]
    | true =>
      by_cases hft : em.bind (·.fileType) = some "video"
      · cases htm : jsTruthy (em.bind (·.tmdbid)) with
        | false =>
          have hc := process_completed_of_checks cfg env cid em hk hft (by simp [htm])
          rw [hc] at hs
          exact absurd hs (by decide)
        | true =>
          cases hfo : cfg.forceRecompute with
          | false => simp [process, hk, hft, htm, hfo, skipOut]
          | true =>
            have hc := process_completed_of_checks cfg env cid em hk hft
              (by simp [htm, hfo])
            rw [hc] at hs
            exact absurd hs (by decide)
      · have hbf : (em.bind (·.fileType) == some "video") = false :=
          beq_eq_false_iff_ne.mpr hft
        simp [process, hk, hbf, skipOut]
  · intro hk hft h3 hcache hres
    have h3b : (jsTruthy (em.bind fun x => x.tmdbid) && !cfg.forceRecompute) = false := by
      rcases h3 with h | h <;> simp [h]
    cases hm2 : em.bind (·.midhash) with
    | none => simp [process, hk, hft, h3b, hm2, jsTruthy_none, freshOut, hres]
    | some s =>
      have hcs : env.cache s = none := hcache s hm2
      cases hmb : (jsTruthy (some s) && !cfg.forceRecompute) with
      | false => simp [process, hk, hft, h3b, hm2, hmb, freshOut, hres]
      | true => simp [process, hk, hft, h3b, hm2, hmb, hcs, freshOut, hres]

/-- C6 witness: a non-video demo item is skipped with nothing touched; a
video item whose resolution finds nothing completes with zero operations. -/
theorem C6_skip_vs_miss_witness :
    (process demoCfg demoEnvFail "c1" none).status = .skipped ∧
    (process demoCfg demoEnvFail "c1" none).ops = [] ∧
    (process demoCfg demoEnvFail "c1" none).cacheRead = false ∧
    ((process demoCfg demoEnvFail "c1" (some demoMeta)).status = .completed ∧
      (process demoCfg demoEnvFail "c1" (some demoMeta)).ops = []) := by
  have h1 := (C6_skip_vs_miss demoCfg demoEnvFail "c1" none).1.mpr
    (Or.inr (Or.inl (by decide)))
  have h2 := (C6_skip_vs_miss demoCfg demoEnvFail "c1" none).2.1 h1
  have h3 := (C6_skip_vs_miss demoCfg demoEnvFail "c1" (some demoMeta)).2.2 rfl rfl
    (Or.inl rfl) (fun mh _ => rfl) rfl
  exact ⟨h1, h2.1, h2.2.1, h3⟩

/-- C8: materialization is idempotent: the destination is a deterministic
function of the inputs; an artifact already present suppresses the download;
repeating a call returns the same identifier, and when a reference is
yielded the download ran at most once across both calls. -/
theorem C8_idempotent_materialization (env : MatEnv) (imagePath imageType title : String)
    (year : Option String) (tmdbId : String) :
    (materialize (materialize env imagePath imageType title year tmdbId).env
        imagePath imageType title year tmdbId).ref =
      (materialize env imagePath imageType title year tmdbId).ref ∧
    ((materialize env imagePath imageType title year tmdbId).ref.isSome →
      (materialize env imagePath imageType title year tmdbId).downloads +
        (materialize (materialize env imagePath imageType title year tmdbId).env
            imagePath imageType title year tmdbId).downloads ≤ 1) ∧
    ((env.davFiles (destPathOf imagePath imageType title year tmdbId)).isSome →
      (materialize env imagePath imageType title year tmdbId).downloads = 0) := by
  cases hip : imagePath.isEmpty with
  | true => simp [materialize, hip]
  | false =>
    cases hcl : env.hasClient with
    | false => simp [materialize, hip, hcl]
    | true =>
      cases hf : env.davFiles (destPathOf imagePath imageType title year tmdbId) with
      | some content => simp [materialize, hip, hcl, hf]
      | none =>
        cases hd : env.download (IMAGE_BASE_URL ++ imagePath) with
        | none => simp [materialize, hip, hcl, hf, hd]
        | some bytes => simp [materialize, hip, hcl, hf, hd]

/-- C8 witness: on a fresh store the demo image is downloaded once, and the
repeat call skips the download and returns the same identifier. -/
theorem C8_idempotent_materialization_witness :
    (materialize (materialize demoMatEnv "/p.jpg" "poster" "T" none "5").env
        "/p.jpg" "poster" "T" none "5").ref =
      (materialize demoMatEnv "/p.jpg" "poster" "T" none "5").ref ∧
    (materialize demoMatEnv "/p.jpg" "poster" "T" none "5").ref.isSome = true ∧
    (materialize demoMatEnv "/p.jpg" "poster" "T" none "5").downloads +
      (materialize (materialize demoMatEnv "/p.jpg" "poster" "T" none "5").env
          "/p.jpg" "poster" "T" none "5").downloads ≤ 1 :=
  ⟨(C8_idempotent_materialization demoMatEnv "/p.jpg" "poster" "T" none "5").1,
    by decide,
    (C8_idempotent_materialization demoMatEnv "/p.jpg" "poster" "T" none "5").2.1
      (by decide)⟩

end Tmdb
